import Mathlib

/-!
Shallow embedding of the timeline visual (`src/visual.ts`).

Modelling conventions:
* JavaScript strings are modelled as Lean `String` values.
* A JavaScript value that may be `undefined` is modelled as an `Option`;
  a computation that throws a `TypeError` (`undefined.toString()`) is
  modelled as returning `none`.
* The local time zone is modelled as UTC, and `new Date(s)` parsing is
  modelled for ISO `YYYY-MM-DD` strings; every other string behaves as an
  invalid date (`NaN` components, which stringify to `"NaN"`).
* Pixel coordinates are modelled as rationals.
-/

namespace Timeline

/-- Models `s.substring(0, n)` from JavaScript. -/
def substringJS (s : String) (n : Nat) : String :=
  String.mk (s.data.take n)

/-- Models `s.padStart(n, c)` from JavaScript. -/
def padStartJS (s : String) (n : Nat) (c : Char) : String :=
  String.mk (List.replicate (n - s.length) c) ++ s

/-- Gregorian leap year, as used by the JavaScript `Date` calendar. -/
def isLeapYear (y : Nat) : Bool :=
  (y % 4 == 0 && y % 100 != 0) || y % 400 == 0

/-- Number of days in a month of the Gregorian calendar (JavaScript `Date`
validates ISO day-of-month against this). -/
def daysInMonth (y m : Nat) : Nat :=
  if m == 2 then (if isLeapYear y then 29 else 28)
  else if m == 4 || m == 6 || m == 9 || m == 11 then 30
  else 31

/-- Numeric value of a digit character. -/
def digitVal (c : Char) : Nat := c.toNat - '0'.toNat

/-- Models `new Date(s)` applied to an ISO `YYYY-MM-DD` string: `some (y, m, d)`
for a valid calendar date, `none` for an invalid date. -/
def parseISODate (s : String) : Option (Nat × Nat × Nat) :=
  match s.data with
  | [y1, y2, y3, y4, c1, m1, m2, c2, d1, d2] =>
    if c1 = '-' ∧ c2 = '-' ∧ y1.isDigit ∧ y2.isDigit ∧ y3.isDigit ∧ y4.isDigit
        ∧ m1.isDigit ∧ m2.isDigit ∧ d1.isDigit ∧ d2.isDigit then
      let y := digitVal y1 * 1000 + digitVal y2 * 100 + digitVal y3 * 10 + digitVal y4
      let m := digitVal m1 * 10 + digitVal m2
      let d := digitVal d1 * 10 + digitVal d2
      if 1 ≤ m ∧ m ≤ 12 ∧ 1 ≤ d ∧ d ≤ daysInMonth y m then some (y, m, d) else none
    else none
  | _ => none

/-- Embeds `formatDate` (visual.ts lines 246-253): `getDate`/`getMonth + 1`
zero-padded to two digits with `padStart(2, '0')`, then `getFullYear`
unpadded.  On an invalid date every accessor is `NaN`, `String(NaN)` is
`"NaN"`, and `"NaN".padStart(2, '0')` is `"NaN"`. -/
def formatDate (isoDate : String) : String :=
  match parseISODate isoDate with
  | some (y, m, d) =>
      padStartJS (toString d) 2 '0' ++ "/" ++ padStartJS (toString m) 2 '0'
        ++ "/" ++ toString y
  | none => "NaN/NaN/NaN"

/-- Embeds `formatStringDisplay` (visual.ts lines 255-261). -/
def formatStringDisplay (input : String) : String :=
  if input.length ≤ 10 then input else substringJS input 7 ++ "..."

/-- Days since the civil epoch 1970-01-01 of a Gregorian date (the standard
days-from-civil computation, with floor division). -/
def daysFromCivil (y m d : ℤ) : ℤ :=
  let y2 := if m ≤ 2 then y - 1 else y
  let era := Int.fdiv y2 400
  let yoe := y2 - era * 400
  let mp := Int.fmod (m + 9) 12
  let doy := Int.fdiv (153 * mp + 2) 5 + d - 1
  let doe := yoe * 365 + Int.fdiv yoe 4 - Int.fdiv yoe 100 + doy
  era * 146097 + doe - 719468

/-- Models `new Date(s).getTime()`: milliseconds since the epoch for a valid
ISO date string, `none` for an invalid date (`NaN` time value). -/
def dateValue (s : String) : Option ℤ :=
  (parseISODate s).map fun p => daysFromCivil (p.1 : ℤ) (p.2.1 : ℤ) (p.2.2 : ℤ) * 86400000

/-- State of a `d3.scaleOrdinal()` instance: the seen-label list (`domain`,
appended to on first sight of a label) and the configured output values
(`range`).  The visual constructor configures no range. -/
structure OrdinalScale where
  domain : List String
  range : List String
deriving DecidableEq

/-- Embeds `d3.scaleOrdinal()` as built in the `Visual` constructor
(visual.ts lines 70-71): empty domain, empty range. -/
def initialScale : OrdinalScale := ⟨[], []⟩

/-- Index of the first occurrence of `x`, used to model the ordinal scale
domain lookup. -/
def idxOf? (x : String) : List String → Option Nat
  | [] => none
  | y :: ys => if y = x then some 0 else (idxOf? x ys).map (· + 1)

/-- Embeds one call of a `d3` ordinal scale with implicit unknown: a seen
label keeps its index, an unseen label is appended to the domain; the value
returned is `range[i % range.length]`, which for an empty range is
`undefined` (modelled as `none`, matching `range[i % 0] = range[NaN]`). -/
def scaleApply (s : OrdinalScale) (x : String) : Option String × OrdinalScale :=
  match idxOf? x s.domain with
  | some i => (s.range.get? (i % s.range.length), s)
  | none =>
      (s.range.get? (s.domain.length % s.range.length), ⟨s.domain ++ [x], s.range⟩)

/-- Applies an ordinal scale to a list of labels, keeping only the state. -/
def scaleRun (s : OrdinalScale) (xs : List String) : OrdinalScale :=
  xs.foldl (fun acc x => (scaleApply acc x).2) s

/-- Embeds the `Data` interface (visual.ts lines 41-51).  The `color` and
`symbol` fields are `Option String` because the untyped scale calls can
evaluate to `undefined` despite the TypeScript annotation. -/
structure Data where
  date : String
  dateDisplay : String
  event : String
  eventDisplay : String
  description : String
  colorAttribute : String
  color : Option String
  symbolAttribute : String
  symbol : Option String
deriving DecidableEq

/-- Role flags of one table column (`column.roles`). -/
structure Roles where
  Date : Bool
  Event : Bool
  Description : Bool
  Color : Bool
  Symbol : Bool
deriving DecidableEq

/-- One column descriptor of the host table. -/
structure Column where
  roles : Roles
deriving DecidableEq

/-- The host table: column descriptors plus rows of (already string-coerced)
cell values. -/
structure Table where
  columns : List Column
  rows : List (List String)
deriving DecidableEq

/-- The `idColumns` role-to-index map of `transformData`
(visual.ts lines 181-187), `none` meaning the JavaScript `null`. -/
structure IdColumns where
  Date : Option Nat
  Event : Option Nat
  Description : Option Nat
  Color : Option Nat
  Symbol : Option Nat
deriving DecidableEq

/-- Embeds the column scan of `transformData` (visual.ts lines 189-207):
each role records the index of the last column carrying it. -/
def scanColumnsAux (acc : IdColumns) (i : Nat) : List Column → IdColumns
  | [] => acc
  | c :: rest =>
    let a1 := if c.roles.Date then { acc with Date := some i } else acc
    let a2 := if c.roles.Event then { a1 with Event := some i } else a1
    let a3 := if c.roles.Description then { a2 with Description := some i } else a2
    let a4 := if c.roles.Color then { a3 with Color := some i } else a3
    let a5 := if c.roles.Symbol then { a4 with Symbol := some i } else a4
    scanColumnsAux a5 (i + 1) rest

/-- Column scan started from the all-`null` map. -/
def scanColumns (cols : List Column) : IdColumns :=
  scanColumnsAux ⟨none, none, none, none, none⟩ 0 cols

/-- Models `row[idx].toString()`: `none` when `idx` is `null` or out of range
(then `row[idx]` is `undefined` and `.toString()` throws a `TypeError`). -/
def cellToString (row : List String) : Option Nat → Option String
  | none => none
  | some i => row.get? i

/-- Embeds the per-row body of `transformData` (visual.ts lines 209-233).
All five cell extractions run `.toString()` unconditionally, so any
unresolved role (or too-short row) throws, modelled by `none`; the
`idColumns[...] !== null` ternaries of the source are kept even though they
are only reached with all five roles resolved. -/
def transformRow (ids : IdColumns) (cs ss : OrdinalScale) (row : List String) :
    Option (Data × OrdinalScale × OrdinalScale) :=
  match cellToString row ids.Date with
  | none => none
  | some date =>
    match cellToString row ids.Event with
    | none => none
    | some event =>
      match cellToString row ids.Description with
      | none => none
      | some description =>
        match cellToString row ids.Color with
        | none => none
        | some colorAttribute =>
          match cellToString row ids.Symbol with
          | none => none
          | some symbolAttribute =>
            let dateDisplay := formatDate date
            let eventDisplay := formatStringDisplay event
            let colorStep : Option String × OrdinalScale :=
              match ids.Color with
              | some _ => scaleApply cs colorAttribute
              | none => (some "#000000", cs)
            let symbolStep : Option String × OrdinalScale :=
              match ids.Symbol with
              | some _ => scaleApply ss symbolAttribute
              | none => (some "circle", ss)
            some ({ date := if ids.Date.isSome then date else ""
                  , dateDisplay := dateDisplay
                  , event := if ids.Event.isSome then event else ""
                  , eventDisplay := if ids.Event.isSome then eventDisplay else ""
                  , description := description
                  , colorAttribute := colorAttribute
                  , color := colorStep.1
                  , symbolAttribute := symbolAttribute
                  , symbol := symbolStep.1 }, colorStep.2, symbolStep.2)

/-- Embeds the `rows.forEach` loop of `transformData`, threading the two
ordinal-scale states; a throw in any row aborts the whole call. -/
def transformRows (ids : IdColumns) (cs ss : OrdinalScale) :
    List (List String) → Option (List Data × OrdinalScale × OrdinalScale)
  | [] => some ([], cs, ss)
  | row :: rest =>
    match transformRow ids cs ss row with
    | none => none
    | some (d, cs2, ss2) =>
      match transformRows ids cs2 ss2 rest with
      | none => none
      | some (ds, cs3, ss3) => some (d :: ds, cs3, ss3)

/-- Embeds `Visual.transformData` (visual.ts lines 176-238): scan the columns
for roles, then map every row to a `Data` record. -/
def transformData (cs ss : OrdinalScale) (table : Table) :
    Option (List Data × OrdinalScale × OrdinalScale) :=
  transformRows (scanColumns table.columns) cs ss table.rows

/-- Raw `date` keys of a record list, in order. -/
def recordDates (records : List Data) : List String :=
  records.map fun r => r.date

/-- First-encounter-order duplicate removal, with an accumulator of the keys
already seen. -/
def dedupKeysAux (seen : List String) : List String → List String
  | [] => []
  | k :: rest =>
    if k ∈ seen then dedupKeysAux seen rest
    else k :: dedupKeysAux (seen ++ [k]) rest

/-- Keys of `d3.group` in first-encounter order. -/
def dedupKeys (l : List String) : List String :=
  dedupKeysAux [] l

/-- Embeds `d3.group(this.data, d => d.date)` (visual.ts line 118): one entry
per distinct raw date in first-encounter order, each holding the records with
that date in encounter order. -/
def d3Group (records : List Data) : List (String × List Data) :=
  (dedupKeys (recordDates records)).map fun k =>
    (k, records.filter (fun r => r.date = k))

/-- Models `d3.min(this.data, d => new Date(d.date))` as a time value:
minimum over the valid (non-`NaN`) dates, `none` when there is none. -/
def minDateVal (dates : List String) : Option ℤ :=
  (dates.filterMap dateValue).min?

/-- Models `d3.max(this.data, d => new Date(d.date))` as a time value. -/
def maxDateVal (dates : List String) : Option ℤ :=
  (dates.filterMap dateValue).max?

/-- Embeds a `d3.scaleTime().domain([a, b]).range([r0, r1])` application:
linear interpolation of the normalized position, with the `d3` degenerate
fallback (a zero-length domain normalizes every input to `1/2`). -/
def d3ScaleTimeApply (a b r0 r1 t : ℚ) : ℚ :=
  if b - a = 0 then r0 + (1 / 2) * (r1 - r0)
  else r0 + ((t - a) / (b - a)) * (r1 - r0)

/-- The x position of the marker of one date group: `timeScale(new Date(date))`
with domain `[minDate, maxDate]` and range `[50, width - 50]`
(visual.ts lines 93-99 and 133).  `none` models a `NaN` coordinate. -/
def markerCx (dates : List String) (width : ℚ) (dateStr : String) : Option ℚ :=
  match dateValue dateStr, minDateVal dates, maxDateVal dates with
  | some t, some a, some b =>
      some (d3ScaleTimeApply (a : ℚ) (b : ℚ) 50 (width - 50) (t : ℚ))
  | _, _, _ => none

/-- One rendered timeline circle (visual.ts lines 132-144) together with the
group key and grouped records its event closures capture. -/
structure Marker where
  date : String
  cx : Option ℚ
  cy : ℚ
  r : ℚ
  fill : String
  stroke : String
  strokeWidth : ℚ
  events : List Data
deriving DecidableEq

/-- Embeds the marker-drawing loop of `Visual.basicTimeline`
(visual.ts lines 117-144): one circle per distinct date, resting attributes
`r = 5`, black fill, black stroke of width 2. -/
def basicTimeline (records : List Data) (width timelineY : ℚ) : List Marker :=
  (d3Group records).map fun g =>
    { date := g.1
    , cx := markerCx (recordDates records) width g.1
    , cy := timelineY
    , r := 5
    , fill := "#000"
    , stroke := "#000"
    , strokeWidth := 2
    , events := g.2 }

/-- The horizontal baseline drawn by `Visual.update` (visual.ts lines 105-111). -/
structure Baseline where
  x1 : ℚ
  x2 : ℚ
  y1 : ℚ
  y2 : ℚ
  stroke : String
  strokeWidth : ℚ
deriving DecidableEq

/-- Everything `Visual.update` draws into the fresh SVG. -/
structure Render where
  baseline : Baseline
  markers : List Marker
deriving DecidableEq

/-- Embeds `Visual.update` (visual.ts lines 75-115): transform the table
(throw aborts the render), then draw the baseline at `y = height / 2` from
`x = 50` to `x = width - 50` and the markers. -/
def update (cs ss : OrdinalScale) (table : Table) (width height : ℚ) :
    Option (Render × OrdinalScale × OrdinalScale) :=
  match transformData cs ss table with
  | none => none
  | some (data, cs2, ss2) =>
    some ({ baseline :=
              { x1 := 50, x2 := width - 50, y1 := height / 2, y2 := height / 2
              , stroke := "#000", strokeWidth := 2 }
          , markers := basicTimeline data width (height / 2) }, cs2, ss2)

/-- The geometric and paint attributes of a drawn circle; the projection of a
marker that forgets the captured group. -/
structure DrawnCircle where
  cx : Option ℚ
  cy : ℚ
  r : ℚ
  fill : String
  stroke : String
  strokeWidth : ℚ
deriving DecidableEq

/-- Projection of a marker to what is actually painted. -/
def drawn (m : Marker) : DrawnCircle :=
  ⟨m.cx, m.cy, m.r, m.fill, m.stroke, m.strokeWidth⟩

/-- One tooltip block of the mouseover handler (visual.ts line 154). -/
def tooltipLine (e : Data) : String :=
  "<b>Date:</b> " ++ e.dateDisplay ++ "<br/><b>Event:</b> " ++ e.eventDisplay
    ++ "<br/><b>Description:</b> " ++ e.description

/-- The full tooltip html of one date group (visual.ts line 154): blocks in
encounter order joined by the blank-line separator. -/
def tooltipHtml (events : List Data) : String :=
  String.intercalate "<br/><br/>" (events.map tooltipLine)

/-- Mutable attributes of a circle targeted by the hover transitions. -/
structure CircleState where
  r : ℚ
  stroke : String
  strokeWidth : ℚ
  fill : String
deriving DecidableEq

/-- Mutable state of the floating tooltip div. -/
structure TooltipState where
  visibility : String
  html : String
deriving DecidableEq

/-- Embeds the `mouseover` handler (visual.ts lines 145-156): a 200ms
transition to `r = 8`, red stroke of width 3, and the tooltip made visible
with the html of the captured group.  The returned rational is the
transition duration in milliseconds. -/
def handleMouseover (m : Marker) (c : CircleState) (_t : TooltipState) :
    (CircleState × TooltipState) × ℚ :=
  (({ r := 8, stroke := "red", strokeWidth := 3, fill := c.fill },
    { visibility := "visible", html := tooltipHtml m.events }), 200)

/-- Embeds the `mouseout` handler (visual.ts lines 161-171): a 200ms
transition back to `r = 5`, black stroke of width 2, and the tooltip
hidden. -/
def handleMouseout (c : CircleState) (t : TooltipState) :
    (CircleState × TooltipState) × ℚ :=
  (({ r := 5, stroke := "#000", strokeWidth := 2, fill := c.fill },
    { visibility := "hidden", html := t.html }), 200)

end Timeline

namespace Timeline

/-! ### Concrete fixtures used by counterexamples and witnesses -/

/-- Five host columns, one per role, in the order Date, Event, Description,
Color, Symbol. -/
def stdColumns : List Column :=
  [⟨⟨true, false, false, false, false⟩⟩,
   ⟨⟨false, true, false, false, false⟩⟩,
   ⟨⟨false, false, true, false, false⟩⟩,
   ⟨⟨false, false, false, true, false⟩⟩,
   ⟨⟨false, false, false, false, true⟩⟩]

/-- A table whose columns resolve Date, Event, Description and Symbol but
leave the Color role unresolved, with one row. -/
def missingColorTable : Table :=
  ⟨[⟨⟨true, false, false, false, false⟩⟩,
    ⟨⟨false, true, false, false, false⟩⟩,
    ⟨⟨false, false, true, false, false⟩⟩,
    ⟨⟨false, false, false, false, true⟩⟩],
   [["2024-03-05", "Launch", "first event", "star"]]⟩

/-- A one-column table carrying no role at all, with one row. -/
def noRolesTable : Table :=
  ⟨[⟨⟨false, false, false, false, false⟩⟩], [["x"]]⟩

/-- A full five-role table with two rows whose Color labels differ. -/
def twoColorTable : Table :=
  ⟨stdColumns,
   [["2024-03-05", "Launch", "first event", "red", "star"],
    ["2024-03-06", "LongEventName!", "second", "blue", "star"]]⟩

/-- Tables for the renderer noninterference witness: they differ exactly in
the Color and Symbol cells. -/
def tableA : Table :=
  ⟨stdColumns, [["2024-03-05", "Launch", "d", "red", "star"]]⟩

/-- Same as `tableA` with other Color and Symbol cell values. -/
def tableB : Table :=
  ⟨stdColumns, [["2024-03-05", "Launch", "d", "blue", "wye"]]⟩

/-- Concrete records for renderer witnesses: two share the date 2024-01-01. -/
def rec1 : Data := ⟨"2024-01-01", "01/01/2024", "A", "A", "d1", "x", none, "s", none⟩

/-- Second record with the same date as `rec1`. -/
def rec2 : Data := ⟨"2024-01-01", "01/01/2024", "B", "B", "d2", "x", none, "s", none⟩

/-- Record with a later date. -/
def rec3 : Data := ⟨"2024-01-03", "03/01/2024", "C", "C", "d3", "x", none, "s", none⟩

/-- The record list used by the renderer witnesses. -/
def recsW : List Data := [rec1, rec2, rec3]

/-- The marker of the 2024-01-01 group of `recsW` on a 300-wide viewport. -/
def markerW : Marker :=
  { date := "2024-01-01"
  , cx := markerCx (recordDates recsW) 300 "2024-01-01"
  , cy := 100, r := 5, fill := "#000", stroke := "#000", strokeWidth := 2
  , events := recsW.filter (fun r => r.date = "2024-01-01") }

/-! ### General helper lemmas -/

/-- Length of a `String.mk`. -/
theorem stringMk_length (l : List Char) : (String.mk l).length = l.length := rfl

/-- A padded two-digit field has length exactly two. -/
theorem padStartJS_two_length (s : String) (h : s.length ≤ 2) :
    (padStartJS s 2 '0').length = 2 := by
  simp only [padStartJS, String.length_append, stringMk_length, List.length_replicate]
  omega

/-- Decimal representation of a day or month number fits in two digits. -/
theorem toString_nat_le_two {n : Nat} (h : n ≤ 31) : (toString n).length ≤ 2 := by
  interval_cases n <;> decide

/-- Every month length is at most 31. -/
theorem daysInMonth_le_31 (y m : Nat) : daysInMonth y m ≤ 31 := by
  simp only [daysInMonth]
  split
  · split <;> omega
  · split <;> omega

/-- Inversion of the ISO date parser: the components of a successful parse
are calendar-valid. -/
theorem parseISODate_bounds {s : String} {y m d : Nat}
    (h : parseISODate s = some (y, m, d)) :
    1 ≤ m ∧ m ≤ 12 ∧ 1 ≤ d ∧ d ≤ daysInMonth y m := by
  unfold parseISODate at h
  split at h
  · split at h
    · simp only [] at h
      split at h
      · rename_i hb
        rw [Option.some.injEq] at h
        injection h with hy hrest
        injection hrest with hm hd
        subst hy; subst hm; subst hd
        exact hb
      · exact absurd h (by simp)
    · exact absurd h (by simp)
  · exact absurd h (by simp)

end Timeline

namespace Timeline

/-! ### Lemmas about first-encounter deduplication -/

/-- Membership in the deduplicated key list. -/
theorem mem_dedupKeysAux {x : String} :
    ∀ (l seen : List String), x ∈ dedupKeysAux seen l ↔ x ∈ l ∧ x ∉ seen := by
  intro l
  induction l with
  | nil => intro seen; simp [dedupKeysAux]
  | cons k rest ih =>
    intro seen
    by_cases hk : k ∈ seen
    · rw [dedupKeysAux, if_pos hk, ih seen]
      constructor
      · rintro ⟨h1, h2⟩; exact ⟨List.mem_cons_of_mem _ h1, h2⟩
      · rintro ⟨h1, h2⟩
        rcases List.mem_cons.mp h1 with rfl | h1
        · exact absurd hk h2
        · exact ⟨h1, h2⟩
    · rw [dedupKeysAux, if_neg hk]
      by_cases hxk : x = k
      · subst hxk
        simp [hk]
      · rw [List.mem_cons]
        constructor
        · rintro (rfl | h1)
          · exact absurd rfl hxk
          · rcases (ih _).mp h1 with ⟨h2, h3⟩
            refine ⟨List.mem_cons_of_mem _ h2, fun hc => h3 ?_⟩
            exact List.mem_append_left _ hc
        · rintro ⟨h1, h2⟩
          rcases List.mem_cons.mp h1 with rfl | h1
          · exact absurd rfl hxk
          · refine Or.inr ((ih _).mpr ⟨h1, fun hc => ?_⟩)
            rcases List.mem_append.mp hc with hc | hc
            · exact h2 hc
            · exact hxk (List.mem_singleton.mp hc)

/-- The deduplicated key list has no duplicates. -/
theorem nodup_dedupKeysAux :
    ∀ (l seen : List String), (dedupKeysAux seen l).Nodup := by
  intro l
  induction l with
  | nil => intro seen; simp [dedupKeysAux]
  | cons k rest ih =>
    intro seen
    by_cases hk : k ∈ seen
    · rw [dedupKeysAux, if_pos hk]; exact ih seen
    · rw [dedupKeysAux, if_neg hk]
      refine List.nodup_cons.mpr ⟨fun hc => ?_, ih _⟩
      rcases (mem_dedupKeysAux rest _).mp hc with ⟨_, h2⟩
      exact h2 (List.mem_append_right _ (List.mem_singleton.mpr rfl))

/-- Membership in `dedupKeys`. -/
theorem mem_dedupKeys {x : String} {l : List String} :
    x ∈ dedupKeys l ↔ x ∈ l := by
  rw [dedupKeys, mem_dedupKeysAux]
  simp

/-- The key list of `dedupKeys` has no duplicates. -/
theorem nodup_dedupKeys (l : List String) : (dedupKeys l).Nodup :=
  nodup_dedupKeysAux l []

/-! ### Lemmas about the ordinal scales -/

/-- An index found in a prefix is found in the appended list. -/
theorem idxOf?_append_left {x : String} :
    ∀ {l : List String} (r : List String) {i : Nat},
      idxOf? x l = some i → idxOf? x (l ++ r) = some i := by
  intro l
  induction l with
  | nil => intro r i h; exact absurd h (by simp [idxOf?])
  | cons y ys ih =>
    intro r i h
    rw [idxOf?] at h
    rw [List.cons_append, idxOf?]
    split at h
    · rw [if_pos (by assumption)]; exact h
    · rw [if_neg (by assumption)]
      rcases Option.map_eq_some'.mp h with ⟨j, hj, rfl⟩
      rw [ih r hj]; rfl

/-- Appending a fresh label puts it at the old length. -/
theorem idxOf?_append_self {x : String} :
    ∀ {l : List String}, idxOf? x l = none → idxOf? x (l ++ [x]) = some l.length := by
  intro l
  induction l with
  | nil => intro _; simp [idxOf?]
  | cons y ys ih =>
    intro h
    rw [idxOf?] at h
    rw [List.cons_append, idxOf?]
    split at h
    · exact absurd h (by simp)
    · rw [if_neg (by assumption)]
      have hys : idxOf? x ys = none := by
        cases hc : idxOf? x ys with
        | none => rfl
        | some j => rw [hc] at h; exact absurd h (by simp)
      rw [ih hys]
      simp [List.length_cons]

/-- One scale call never changes the configured range. -/
theorem scaleApply_range (s : OrdinalScale) (x : String) :
    ((scaleApply s x).2).range = s.range := by
  rw [scaleApply]
  cases h : idxOf? x s.domain <;> simp

/-- One scale call only appends to the domain. -/
theorem scaleApply_domain (s : OrdinalScale) (x : String) :
    ∃ t, ((scaleApply s x).2).domain = s.domain ++ t := by
  rw [scaleApply]
  cases h : idxOf? x s.domain with
  | none => exact ⟨[x], by simp⟩
  | some i => exact ⟨[], by simp⟩

/-- Running the scale over a list never changes the range. -/
theorem scaleRun_range (xs : List String) :
    ∀ (s : OrdinalScale), (scaleRun s xs).range = s.range := by
  induction xs with
  | nil => intro s; rfl
  | cons x xs ih =>
    intro s
    rw [scaleRun, List.foldl_cons]
    rw [show List.foldl (fun acc x => (scaleApply acc x).2) ((scaleApply s x).2) xs
          = scaleRun ((scaleApply s x).2) xs from rfl]
    rw [ih, scaleApply_range]

/-- Running the scale over a list only appends to the domain. -/
theorem scaleRun_domain (xs : List String) :
    ∀ (s : OrdinalScale), ∃ t, (scaleRun s xs).domain = s.domain ++ t := by
  induction xs with
  | nil => intro s; exact ⟨[], by simp [scaleRun]⟩
  | cons x xs ih =>
    intro s
    obtain ⟨t1, ht1⟩ := scaleApply_domain s x
    obtain ⟨t2, ht2⟩ := ih ((scaleApply s x).2)
    refine ⟨t1 ++ t2, ?_⟩
    rw [scaleRun, List.foldl_cons]
    rw [show List.foldl (fun acc x => (scaleApply acc x).2) ((scaleApply s x).2) xs
          = scaleRun ((scaleApply s x).2) xs from rfl]
    rw [ht2, ht1, List.append_assoc]

end Timeline

namespace Timeline

/-- The value of one scale call at a label already indexed. -/
theorem scaleApply_fst_of_idx {s : OrdinalScale} {x : String} {i : Nat}
    (h : idxOf? x s.domain = some i) :
    (scaleApply s x).1 = s.range.get? (i % s.range.length) := by
  rw [scaleApply, h]

/-- After one call at `x`, the state indexes `x` and remembers its value:
there is an index of `x` in the new domain whose range slot is the returned
value. -/
theorem scaleApply_indexes {s : OrdinalScale} {x : String} :
    ∃ i, idxOf? x ((scaleApply s x).2).domain = some i ∧
      (scaleApply s x).1 = s.range.get? (i % s.range.length) := by
  cases h : idxOf? x s.domain with
  | some i =>
    refine ⟨i, ?_, ?_⟩
    · rw [scaleApply, h]; exact h
    · exact scaleApply_fst_of_idx h
  | none =>
    refine ⟨s.domain.length, ?_, ?_⟩
    · rw [scaleApply, h]
      exact idxOf?_append_self h
    · rw [scaleApply, h]

end Timeline

namespace Timeline

/-!  ### Claim theorems -/

/-- C1 (code evaluation at the failing input): on a one-row table whose
columns resolve every role except Color, `transformData` does not succeed
with a defaulted black color — it throws (the unconditional
`row[idColumns["Color"]].toString()` on line 215 runs before the
`!== null` ternary can default, and `row[null]` is `undefined`). -/
theorem transformData_missing_role_throws :
    transformData initialScale initialScale missingColorTable = none := rfl

/-- C2 (counterexample): a table with one row on which `transformData` does
not return a one-element record list — it throws because no column resolves
any role. -/
theorem transformData_not_total :
    noRolesTable.rows.length = 1 ∧
    transformData initialScale initialScale noRolesTable = none := ⟨rfl, rfl⟩

/-- C7 (counterexample): the 17-character event string is NOT displayed as
the 11-character string claimed; `substring(0, 7)` keeps 7 characters, so
the display is "HelloWo...". -/
theorem formatStringDisplay_not_HelloWor :
    formatStringDisplay "HelloWorldExample" ≠ "HelloWor..." := by decide

/-- C7 (amended): "HelloWorldExample" is displayed as "HelloWo..."
(first 7 characters plus the 3-character ellipsis marker) and "Short" is
displayed unchanged. -/
theorem formatStringDisplay_examples :
    formatStringDisplay "HelloWorldExample" = "HelloWo..." ∧
    formatStringDisplay "Short" = "Short" := by decide

/-- C5 (counterexample): a parseable raw date with year 50 is formatted with
the year unpadded as "50", not as a four-digit year, so the output is not of
the `DD/MM/YYYY` ten-character shape the claim states for every raw date. -/
theorem formatDate_year_not_padded :
    formatDate "0050-03-05" = "05/03/50" ∧
    (formatDate "0050-03-05").length = 8 := by decide

/-- C6: if the event string has length at most 10 it is displayed unchanged;
otherwise the display is its first 7 characters followed by the 3-character
ellipsis marker, a 10-character display string. -/
theorem formatStringDisplay_spec (s : String) :
    (s.length ≤ 10 → formatStringDisplay s = s) ∧
    (10 < s.length → formatStringDisplay s = substringJS s 7 ++ "..." ∧
      (formatStringDisplay s).length = 10) := by
  constructor
  · intro h
    rw [formatStringDisplay, if_pos h]
  · intro h
    have hn : ¬ s.length ≤ 10 := Nat.not_le.mpr h
    refine ⟨by rw [formatStringDisplay, if_neg hn], ?_⟩
    rw [formatStringDisplay, if_neg hn]
    rw [substringJS, String.length_append, stringMk_length, List.length_take]
    have hd : s.length = s.data.length := rfl
    rw [hd] at h
    have : min 7 s.data.length = 7 := Nat.min_eq_left (by omega)
    rw [this]
    rfl

/-- C6 (witness): the truncation law evaluated at "Short" and at
"HelloWorldExample". -/
theorem formatStringDisplay_spec_witness :
    formatStringDisplay "Short" = "Short" ∧
    formatStringDisplay "HelloWorldExample" = substringJS "HelloWorldExample" 7 ++ "..." ∧
    (formatStringDisplay "HelloWorldExample").length = 10 :=
  ⟨(formatStringDisplay_spec "Short").1 (by decide),
   ((formatStringDisplay_spec "HelloWorldExample").2 (by decide)).1,
   ((formatStringDisplay_spec "HelloWorldExample").2 (by decide)).2⟩

/-- C5 (amended): for every raw value that parses as a calendar date the
formatter emits day and month zero-padded to exactly two digits, separated
by slashes from the unpadded year (so not always four digits); in
particular "2024-03-05" is displayed as "05/03/2024". -/
theorem formatDate_spec (s : String) (y m d : Nat)
    (h : parseISODate s = some (y, m, d)) :
    formatDate s = padStartJS (toString d) 2 '0' ++ "/" ++ padStartJS (toString m) 2 '0'
      ++ "/" ++ toString y ∧
    (padStartJS (toString d) 2 '0').length = 2 ∧
    (padStartJS (toString m) 2 '0').length = 2 ∧
    formatDate "2024-03-05" = "05/03/2024" := by
  obtain ⟨hm1, hm2, hd1, hd2⟩ := parseISODate_bounds h
  have hd31 : d ≤ 31 := le_trans hd2 (daysInMonth_le_31 y m)
  refine ⟨by rw [formatDate, h], ?_, ?_, by decide⟩
  · exact padStartJS_two_length _ (toString_nat_le_two hd31)
  · exact padStartJS_two_length _ (toString_nat_le_two (by omega))

/-- C5 (witness): the format law evaluated at the raw date "2024-03-05". -/
theorem formatDate_spec_witness :
    formatDate "2024-03-05" = padStartJS (toString 5) 2 '0' ++ "/"
      ++ padStartJS (toString 3) 2 '0' ++ "/" ++ toString 2024 ∧
    (padStartJS (toString 5) 2 '0').length = 2 ∧
    (padStartJS (toString 3) 2 '0').length = 2 ∧
    formatDate "2024-03-05" = "05/03/2024" :=
  formatDate_spec "2024-03-05" 2024 3 5 (by decide)

/-- C8 (counterexample): running `transformData` with the scales exactly as
the constructor builds them, the two newly seen Color labels "red" and
"blue" are both registered in the scale domain but both resolve to
`undefined` (`none`) — no value of any fixed finite palette is assigned;
likewise the Symbol label "star" resolves to `undefined`. -/
theorem scale_empty_range_no_palette :
    (transformData initialScale initialScale twoColorTable).map
        (fun p => p.1.map fun r => (r.color, r.symbol)) =
      some [(none, none), (none, none)] ∧
    (transformData initialScale initialScale twoColorTable).map
        (fun p => p.2.1.domain) = some ["red", "blue"] := by decide

/-- C8 (amended): the ordinal scales are deterministic — a label, once seen,
resolves to the same value on every later call whatever labels arrive in
between — but with the range the constructor leaves empty every label
resolves to `undefined` (`none`), not to a member of a palette or shape
set. -/
theorem scale_deterministic (s : OrdinalScale) (x : String) (ys : List String) :
    (scaleApply (scaleRun (scaleApply s x).2 ys) x).1 = (scaleApply s x).1 ∧
    (s.range = [] → (scaleApply s x).1 = none) := by
  constructor
  · obtain ⟨i, hi, hv⟩ := scaleApply_indexes (s := s) (x := x)
    obtain ⟨t, ht⟩ := scaleRun_domain ys ((scaleApply s x).2)
    have hidx : idxOf? x (scaleRun ((scaleApply s x).2) ys).domain = some i := by
      rw [ht]; exact idxOf?_append_left t hi
    rw [scaleApply_fst_of_idx hidx, scaleRun_range, scaleApply_range, hv]
  · intro hr
    rw [scaleApply]
    cases h : idxOf? x s.domain <;> simp [hr]

/-- C8 (witness): determinism and the undefined value evaluated on the
constructor state with labels "a" then "b" then "a" again. -/
theorem scale_deterministic_witness :
    (scaleApply (scaleRun (scaleApply initialScale "a").2 ["b"]) "a").1 =
      (scaleApply initialScale "a").1 ∧
    (scaleApply initialScale "a").1 = none :=
  ⟨(scale_deterministic initialScale "a" ["b"]).1,
   (scale_deterministic initialScale "a" ["b"]).2 rfl⟩

end Timeline

namespace Timeline

/-- Row-count and per-row decomposition of the row loop: a successful run
yields one record per row, each produced by `transformRow` at some
intermediate scale states. -/
theorem transformRows_spec (ids : IdColumns) :
    ∀ (rows : List (List String)) (cs ss : OrdinalScale) (out : List Data)
      (cs2 ss2 : OrdinalScale),
      transformRows ids cs ss rows = some (out, cs2, ss2) →
      out.length = rows.length ∧
      ∀ i, i < rows.length → ∃ cs' ss' d cs'' ss'' row,
        rows.get? i = some row ∧ out.get? i = some d ∧
        transformRow ids cs' ss' row = some (d, cs'', ss'') := by
  intro rows
  induction rows with
  | nil =>
    intro cs ss out cs2 ss2 h
    rw [transformRows] at h
    rw [Option.some.injEq] at h
    injection h with h1 h2
    subst h1
    exact ⟨rfl, fun i hi => absurd hi (by simp)⟩
  | cons row rest ih =>
    intro cs ss out cs2 ss2 h
    rw [transformRows] at h
    cases h1 : transformRow ids cs ss row with
    | none => rw [h1] at h; exact absurd h (by simp)
    | some v =>
      obtain ⟨d, cs3, ss3⟩ := v
      rw [h1] at h
      simp only [] at h
      cases h2 : transformRows ids cs3 ss3 rest with
      | none => rw [h2] at h; exact absurd h (by simp)
      | some w =>
        obtain ⟨ds, cs4, ss4⟩ := w
        rw [h2] at h
        simp only [] at h
        rw [Option.some.injEq] at h
        injection h with hout hstates
        subst hout
        obtain ⟨hlen, hidx⟩ := ih cs3 ss3 ds cs4 ss4 h2
        constructor
        · simp [List.length_cons, hlen]
        · intro i hi
          cases i with
          | zero => exact ⟨cs, ss, d, cs3, ss3, row, rfl, rfl, h1⟩
          | succ j =>
            have hj : j < rest.length := by
              simp [List.length_cons] at hi
              omega
            obtain ⟨a1, a2, a3, a4, a5, a6, b1, b2, b3⟩ := hidx j hj
            exact ⟨a1, a2, a3, a4, a5, a6, b1, b2, b3⟩

/-- C2 (amended): whenever `transformData` returns (it can instead throw,
see the C1 and C2 counterexamples), it returns exactly one record per input
row, and the i-th output record is the `transformRow` image of the i-th
input row at the scale states reached after the earlier rows. -/
theorem transformData_row_count (cs ss : OrdinalScale) (table : Table)
    (out : List Data) (cs2 ss2 : OrdinalScale)
    (h : transformData cs ss table = some (out, cs2, ss2)) :
    out.length = table.rows.length ∧
    ∀ i, i < table.rows.length → ∃ cs' ss' d cs'' ss'' row,
      table.rows.get? i = some row ∧ out.get? i = some d ∧
      transformRow (scanColumns table.columns) cs' ss' row = some (d, cs'', ss'') :=
  transformRows_spec (scanColumns table.columns) table.rows cs ss out cs2 ss2 h

/-- C2 (witness): the row-count law evaluated on a concrete two-row
five-role table. -/
theorem transformData_row_count_witness :
    ([⟨"2024-03-05", "05/03/2024", "Launch", "Launch", "first event", "red",
       none, "star", none⟩,
      ⟨"2024-03-06", "06/03/2024", "LongEventName!", "LongEve...", "second",
       "blue", none, "star", none⟩] : List Data).length =
      twoColorTable.rows.length ∧
    ∀ i, i < twoColorTable.rows.length → ∃ cs' ss' d cs'' ss'' row,
      twoColorTable.rows.get? i = some row ∧
      ([⟨"2024-03-05", "05/03/2024", "Launch", "Launch", "first event", "red",
         none, "star", none⟩,
        ⟨"2024-03-06", "06/03/2024", "LongEventName!", "LongEve...", "second",
         "blue", none, "star", none⟩] : List Data).get? i = some d ∧
      transformRow (scanColumns twoColorTable.columns) cs' ss' row = some (d, cs'', ss'') :=
  transformData_row_count initialScale initialScale twoColorTable _
    ⟨["red", "blue"], []⟩ ⟨["star"], []⟩ (by decide)

/-- C4: on a table with zero rows, `update` does not throw; it draws the
baseline from `x = 50` to `x = width - 50` at `y = height / 2` (black,
width 2) and zero markers, leaving the scale states untouched. -/
theorem update_empty_rows (cs ss : OrdinalScale) (cols : List Column) (w h : ℚ) :
    update cs ss ⟨cols, []⟩ w h =
      some (⟨⟨50, w - 50, h / 2, h / 2, "#000", 2⟩, []⟩, cs, ss) := rfl

end Timeline

namespace Timeline

/-- The marker dates of a render are exactly the deduplicated record dates. -/
theorem basicTimeline_map_date (records : List Data) (w y : ℚ) :
    (basicTimeline records w y).map Marker.date = dedupKeys (recordDates records) := by
  rw [basicTimeline, d3Group, List.map_map, List.map_map]
  exact List.map_id'' (fun k => rfl) _

/-- C3: the renderer draws exactly one marker per distinct raw date value
(in first-encounter order, with no duplicates, and covering exactly the
dates present), the records sharing a date are grouped under its marker,
and every marker x position is the linear time scale with domain
`[min date, max date]` and range `[50, width - 50]` applied to the marker
date; that scale maps the domain ends to the range ends. -/
theorem basicTimeline_one_marker_per_date (records : List Data) (w y : ℚ)
    (a b : ℤ)
    (hmin : minDateVal (recordDates records) = some a)
    (hmax : maxDateVal (recordDates records) = some b)
    (hvalid : ∀ r ∈ records, (dateValue r.date).isSome) :
    (basicTimeline records w y).map Marker.date = dedupKeys (recordDates records) ∧
    ((basicTimeline records w y).map Marker.date).Nodup ∧
    (∀ k, k ∈ (basicTimeline records w y).map Marker.date ↔ k ∈ recordDates records) ∧
    (∀ m ∈ basicTimeline records w y,
      m.events = records.filter (fun r => r.date = m.date) ∧
      ∃ t : ℤ, dateValue m.date = some t ∧
        m.cx = some (d3ScaleTimeApply (a : ℚ) (b : ℚ) 50 (w - 50) (t : ℚ))) ∧
    ((a : ℚ) < (b : ℚ) →
      d3ScaleTimeApply (a : ℚ) (b : ℚ) 50 (w - 50) (a : ℚ) = 50 ∧
      d3ScaleTimeApply (a : ℚ) (b : ℚ) 50 (w - 50) (b : ℚ) = w - 50) := by
  have hmap := basicTimeline_map_date records w y
  refine ⟨hmap, ?_, ?_, ?_, ?_⟩
  · rw [hmap]; exact nodup_dedupKeys _
  · intro k; rw [hmap]; exact mem_dedupKeys
  · intro m hm
    obtain ⟨g, hg, rfl⟩ := List.mem_map.mp hm
    obtain ⟨k, hk, rfl⟩ := List.mem_map.mp hg
    refine ⟨rfl, ?_⟩
    have hk2 : k ∈ recordDates records := mem_dedupKeys.mp hk
    obtain ⟨r, hr, hrk⟩ := List.mem_map.mp hk2
    have hs := hvalid r hr
    rw [hrk] at hs
    obtain ⟨t, ht⟩ := Option.isSome_iff_exists.mp hs
    refine ⟨t, ht, ?_⟩
    show markerCx (recordDates records) w k = _
    simp only [markerCx, ht, hmin, hmax]
  · intro hab
    have hne : (b : ℚ) - a ≠ 0 := sub_ne_zero.mpr (ne_of_gt hab)
    constructor
    · rw [d3ScaleTimeApply, if_neg hne]
      simp
    · rw [d3ScaleTimeApply, if_neg hne, div_self hne]
      ring

/-- C3 (witness): the marker law evaluated on three concrete records, two of
which share the date 2024-01-01, on a 300-wide viewport. -/
theorem basicTimeline_one_marker_per_date_witness :
    (basicTimeline recsW 300 100).map Marker.date = dedupKeys (recordDates recsW) ∧
    ((basicTimeline recsW 300 100).map Marker.date).Nodup ∧
    (∀ k, k ∈ (basicTimeline recsW 300 100).map Marker.date ↔ k ∈ recordDates recsW) ∧
    (∀ m ∈ basicTimeline recsW 300 100,
      m.events = recsW.filter (fun r => r.date = m.date) ∧
      ∃ t : ℤ, dateValue m.date = some t ∧
        m.cx = some (d3ScaleTimeApply ((1704067200000 : ℤ) : ℚ) ((1704240000000 : ℤ) : ℚ)
          50 (300 - 50) (t : ℚ))) ∧
    (((1704067200000 : ℤ) : ℚ) < ((1704240000000 : ℤ) : ℚ) →
      d3ScaleTimeApply ((1704067200000 : ℤ) : ℚ) ((1704240000000 : ℤ) : ℚ) 50 (300 - 50)
        ((1704067200000 : ℤ) : ℚ) = 50 ∧
      d3ScaleTimeApply ((1704067200000 : ℤ) : ℚ) ((1704240000000 : ℤ) : ℚ) 50 (300 - 50)
        ((1704240000000 : ℤ) : ℚ) = 300 - 50) :=
  basicTimeline_one_marker_per_date recsW 300 100 1704067200000 1704240000000
    (by decide) (by decide) (by decide)

/-- C9: every drawn marker rests at radius 5 with black stroke of width 2;
its pointer-enter handler transitions it (over 200ms) to radius 8 with a red
stroke of width 3 and reveals the tooltip holding, for every record grouped
under the marker date in encounter order, its display date, display event
and description, groups separated by a blank line; the pointer-leave handler
transitions back (over 200ms) to radius 5 and black stroke of width 2 and
hides the tooltip. -/
theorem marker_hover (records : List Data) (w y : ℚ) (m : Marker)
    (c : CircleState) (t : TooltipState) (hm : m ∈ basicTimeline records w y) :
    m.r = 5 ∧ m.stroke = "#000" ∧ m.strokeWidth = 2 ∧ m.fill = "#000" ∧
    m.events = records.filter (fun r => r.date = m.date) ∧
    handleMouseover m c t =
      ((⟨8, "red", 3, c.fill⟩,
        ⟨"visible", tooltipHtml (records.filter (fun r => r.date = m.date))⟩), 200) ∧
    handleMouseout ((handleMouseover m c t).1.1) ((handleMouseover m c t).1.2) =
      ((⟨5, "#000", 2, c.fill⟩,
        ⟨"hidden", tooltipHtml (records.filter (fun r => r.date = m.date))⟩), 200) := by
  obtain ⟨g, hg, rfl⟩ := List.mem_map.mp hm
  obtain ⟨k, hk, rfl⟩ := List.mem_map.mp hg
  exact ⟨rfl, rfl, rfl, rfl, rfl, rfl, rfl⟩

/-- C9 (witness): the hover law evaluated at the 2024-01-01 marker of the
concrete record list, starting from the resting circle and a hidden
tooltip. -/
theorem marker_hover_witness :
    markerW.r = 5 ∧ markerW.stroke = "#000" ∧ markerW.strokeWidth = 2 ∧
    markerW.fill = "#000" ∧
    markerW.events = recsW.filter (fun r => r.date = markerW.date) ∧
    handleMouseover markerW ⟨5, "#000", 2, "#000"⟩ ⟨"hidden", ""⟩ =
      ((⟨8, "red", 3, "#000"⟩,
        ⟨"visible", tooltipHtml (recsW.filter (fun r => r.date = markerW.date))⟩), 200) ∧
    handleMouseout ((handleMouseover markerW ⟨5, "#000", 2, "#000"⟩ ⟨"hidden", ""⟩).1.1)
        ((handleMouseover markerW ⟨5, "#000", 2, "#000"⟩ ⟨"hidden", ""⟩).1.2) =
      ((⟨5, "#000", 2, "#000"⟩,
        ⟨"hidden", tooltipHtml (recsW.filter (fun r => r.date = markerW.date))⟩), 200) :=
  marker_hover recsW 300 100 markerW ⟨5, "#000", 2, "#000"⟩ ⟨"hidden", ""⟩
    (List.mem_map.mpr ⟨("2024-01-01", recsW.filter (fun r => r.date = "2024-01-01")),
      List.mem_map.mpr ⟨"2024-01-01", by decide, rfl⟩, rfl⟩)

end Timeline

namespace Timeline

/-- A cell read that misses does so on any row of the same length. -/
theorem cellToString_none_transfer {r1 r2 : List String}
    (hlen : r1.length = r2.length) {idx : Option Nat}
    (h : cellToString r1 idx = none) : cellToString r2 idx = none := by
  cases idx with
  | none => rfl
  | some i =>
    simp only [cellToString] at h ⊢
    rw [List.get?_eq_none] at h ⊢
    omega

/-- A cell read that hits does so on any row of the same length. -/
theorem cellToString_some_transfer {r1 r2 : List String}
    (hlen : r1.length = r2.length) {idx : Option Nat} {v : String}
    (h : cellToString r1 idx = some v) :
    ∃ w, cellToString r2 idx = some w := by
  cases idx with
  | none => exact absurd h (by simp [cellToString])
  | some i =>
    simp only [cellToString] at h ⊢
    cases hg : r2.get? i with
    | some w => exact ⟨w, rfl⟩
    | none =>
      rw [List.get?_eq_none] at hg
      have : r1.get? i = none := List.get?_eq_none.mpr (by omega)
      rw [this] at h
      exact absurd h (by simp)

/-- Rows that agree outside the Color and Symbol columns produce records
with the same raw date (or fail together), whatever the scale states. -/
theorem transformRow_agree (ids : IdColumns) (cs1 ss1 cs2 ss2 : OrdinalScale)
    {r1 r2 : List String}
    (hlen : r1.length = r2.length)
    (hag : ∀ j, ids.Color ≠ some j → ids.Symbol ≠ some j → r1.get? j = r2.get? j)
    (hD : ∀ j, ids.Date = some j → ids.Color ≠ some j ∧ ids.Symbol ≠ some j) :
    (transformRow ids cs1 ss1 r1).map (fun p => p.1.date) =
    (transformRow ids cs2 ss2 r2).map (fun p => p.1.date) := by
  have hdate : cellToString r1 ids.Date = cellToString r2 ids.Date := by
    cases hid : ids.Date with
    | none => rfl
    | some j =>
      obtain ⟨hc, hs⟩ := hD j hid
      simp only [cellToString]
      exact hag j hc hs
  cases h1 : cellToString r1 ids.Date with
  | none =>
    rw [transformRow, h1, transformRow, hdate.symm.trans h1]
  | some date =>
    rw [transformRow, h1, transformRow, hdate.symm.trans h1]
    cases h2 : cellToString r1 ids.Event with
    | none => rw [cellToString_none_transfer hlen h2]
    | some ev1 =>
      obtain ⟨ev2, h2'⟩ := cellToString_some_transfer hlen h2
      rw [h2']
      cases h3 : cellToString r1 ids.Description with
      | none => rw [cellToString_none_transfer hlen h3]
      | some de1 =>
        obtain ⟨de2, h3'⟩ := cellToString_some_transfer hlen h3
        rw [h3']
        cases h4 : cellToString r1 ids.Color with
        | none => rw [cellToString_none_transfer hlen h4]
        | some co1 =>
          obtain ⟨co2, h4'⟩ := cellToString_some_transfer hlen h4
          rw [h4']
          cases h5 : cellToString r1 ids.Symbol with
          | none => rw [cellToString_none_transfer hlen h5]
          | some sy1 =>
            obtain ⟨sy2, h5'⟩ := cellToString_some_transfer hlen h5
            rw [h5']
            rfl

/-- Lists of rows that agree outside the Color and Symbol columns transform
to record lists with the same raw dates (or fail together). -/
theorem transformRows_agree (ids : IdColumns)
    (hD : ∀ j, ids.Date = some j → ids.Color ≠ some j ∧ ids.Symbol ≠ some j) :
    ∀ (rows1 rows2 : List (List String)) (cs1 ss1 cs2 ss2 : OrdinalScale),
      rows1.length = rows2.length →
      (∀ k row1 row2, rows1.get? k = some row1 → rows2.get? k = some row2 →
        row1.length = row2.length ∧
        ∀ j, ids.Color ≠ some j → ids.Symbol ≠ some j → row1.get? j = row2.get? j) →
      (transformRows ids cs1 ss1 rows1).map (fun p => recordDates p.1) =
      (transformRows ids cs2 ss2 rows2).map (fun p => recordDates p.1) := by
  intro rows1
  induction rows1 with
  | nil =>
    intro rows2 cs1 ss1 cs2 ss2 hlen _
    cases rows2 with
    | nil => rfl
    | cons _ _ => exact absurd hlen (by simp)
  | cons row1 rest1 ih =>
    intro rows2 cs1 ss1 cs2 ss2 hlen hag
    cases rows2 with
    | nil => exact absurd hlen (by simp)
    | cons row2 rest2 =>
      obtain ⟨hrl, hrg⟩ := hag 0 row1 row2 rfl rfl
      have hhead := transformRow_agree ids cs1 ss1 cs2 ss2 hrl hrg hD
      rw [transformRows, transformRows]
      cases e1 : transformRow ids cs1 ss1 row1 with
      | none =>
        rw [e1] at hhead
        cases e2 : transformRow ids cs2 ss2 row2 with
        | none => rfl
        | some v => rw [e2] at hhead; exact absurd hhead (by simp)
      | some v1 =>
        obtain ⟨d1, cs3, ss3⟩ := v1
        rw [e1] at hhead
        cases e2 : transformRow ids cs2 ss2 row2 with
        | none => rw [e2] at hhead; exact absurd hhead (by simp)
        | some v2 =>
          obtain ⟨d2, cs4, ss4⟩ := v2
          rw [e2] at hhead
          simp only [Option.map_some'] at hhead
          have htail := ih rest2 cs3 ss3 cs4 ss4 (by simpa using hlen)
            (fun k ra rb h1 h2 => hag (k + 1) ra rb (by simpa using h1) (by simpa using h2))
          simp only []
          cases t1 : transformRows ids cs3 ss3 rest1 with
          | none =>
            rw [t1] at htail
            cases t2 : transformRows ids cs4 ss4 rest2 with
            | none => rfl
            | some u => rw [t2] at htail; exact absurd htail (by simp)
          | some u1 =>
            obtain ⟨ds1, cs5, ss5⟩ := u1
            rw [t1] at htail
            cases t2 : transformRows ids cs4 ss4 rest2 with
            | none => rw [t2] at htail; exact absurd htail (by simp)
            | some u2 =>
              obtain ⟨ds2, cs6, ss6⟩ := u2
              rw [t2] at htail
              simp only [Option.map_some'] at htail
              simp only [Option.map_some', Option.some.injEq]
              show recordDates (d1 :: ds1) = recordDates (d2 :: ds2)
              simp only [recordDates, List.map_cons] at htail ⊢
              rw [Option.some.injEq] at hhead htail
              rw [hhead, htail]

end Timeline

namespace Timeline

/-- What is painted depends on the records only through their raw dates. -/
theorem map_drawn_basicTimeline (records : List Data) (w y : ℚ) :
    (basicTimeline records w y).map drawn =
    (dedupKeys (recordDates records)).map
      (fun k => ⟨markerCx (recordDates records) w k, y, 5, "#000", "#000", 2⟩) := by
  rw [basicTimeline, d3Group, List.map_map, List.map_map]
  rfl

/-- C10: for two tables with the same columns whose rows agree in length and
in every cell outside the columns resolved for the Color and Symbol roles
(and whose Date column is not also a Color or Symbol column), `update`
paints identical markers — same positions, radius 5, black fill, black
stroke of width 2 — because the resolved `color` and `symbol` fields are
computed but never read when drawing. -/
theorem markers_independent_of_color_symbol
    (cs1 ss1 cs2 ss2 : OrdinalScale) (t1 t2 : Table) (w h : ℚ)
    (hcols : t1.columns = t2.columns)
    (hlen : t1.rows.length = t2.rows.length)
    (hD : ∀ j, (scanColumns t1.columns).Date = some j →
      (scanColumns t1.columns).Color ≠ some j ∧
      (scanColumns t1.columns).Symbol ≠ some j)
    (hrows : ∀ k row1 row2, t1.rows.get? k = some row1 → t2.rows.get? k = some row2 →
      row1.length = row2.length ∧
      ∀ j, (scanColumns t1.columns).Color ≠ some j →
        (scanColumns t1.columns).Symbol ≠ some j → row1.get? j = row2.get? j) :
    (update cs1 ss1 t1 w h).map (fun p => (p.1.markers).map drawn) =
    (update cs2 ss2 t2 w h).map (fun p => (p.1.markers).map drawn) := by
  have hagree := transformRows_agree (scanColumns t1.columns) hD t1.rows t2.rows
    cs1 ss1 cs2 ss2 hlen hrows
  rw [update, update, transformData, transformData, ← hcols]
  cases e1 : transformRows (scanColumns t1.columns) cs1 ss1 t1.rows with
  | none =>
    rw [e1] at hagree
    cases e2 : transformRows (scanColumns t1.columns) cs2 ss2 t2.rows with
    | none => rfl
    | some v => rw [e2] at hagree; exact absurd hagree (by simp)
  | some v1 =>
    obtain ⟨data1, cs3, ss3⟩ := v1
    rw [e1] at hagree
    cases e2 : transformRows (scanColumns t1.columns) cs2 ss2 t2.rows with
    | none => rw [e2] at hagree; exact absurd hagree (by simp)
    | some v2 =>
      obtain ⟨data2, cs4, ss4⟩ := v2
      rw [e2] at hagree
      simp only [Option.map_some', Option.some.injEq] at hagree ⊢
      rw [map_drawn_basicTimeline, map_drawn_basicTimeline]
      rw [show recordDates data1 = recordDates data2 from hagree]

/-- C10 (witness): identical painted markers for the two concrete tables
that differ exactly in their Color and Symbol cells. -/
theorem markers_independent_witness :
    (update initialScale initialScale tableA 300 100).map
        (fun p => (p.1.markers).map drawn) =
    (update initialScale initialScale tableB 300 100).map
        (fun p => (p.1.markers).map drawn) :=
  markers_independent_of_color_symbol initialScale initialScale initialScale
    initialScale tableA tableB 300 100 rfl rfl
    (fun j hj => by
      have hj' : some 0 = some j := hj
      cases hj'
      exact ⟨by decide, by decide⟩)
    (fun k row1 row2 h1 h2 => by
      cases k with
      | zero =>
        have e1 : some (["2024-03-05", "Launch", "d", "red", "star"] : List String)
            = some row1 := h1
        have e2 : some (["2024-03-05", "Launch", "d", "blue", "wye"] : List String)
            = some row2 := h2
        cases e1
        cases e2
        refine ⟨rfl, fun j hc hs => ?_⟩
        have hc3 : j ≠ 3 := fun hj3 => hc (by rw [hj3]; rfl)
        have hs4 : j ≠ 4 := fun hj4 => hs (by rw [hj4]; rfl)
        rcases j with _|_|_|_|_|n
        · rfl
        · rfl
        · rfl
        · exact absurd rfl hc3
        · exact absurd rfl hs4
        · rfl
      | succ n => simp [tableA] at h1)

end Timeline
